import Mathlib

/-
Shallow embedding of `src/ticket_monitor.py` (class `TicketMonitor`).

Modelling conventions:
- A Python dict entry that may be missing is an `Option` field; accessing a
  missing key raises `KeyError`, modelled by the `Except` error path.
- Python `set` of ticket-id strings is `Finset String`.
- Python float prices are modelled as exact rationals (`Rat`); every price the
  program builds is `total_amount / 100`, an exact multiple of 1/100, on which
  `"%.2f"` formatting agrees with exact decimal rendering.
- The outcome of one call to `check_ticket_availability` records the in-memory
  `known_tickets` set afterwards, what (if anything) was persisted by
  `save_known_tickets`, the messages handed to `send_telegram_message` together
  with their delivery outcome, whether an exception escaped the method
  (`raised`), and whether an error was logged (`errorLogged`).
- External effects that can fail are modelled by Boolean oracles: `saveOk`
  (the file write in `save_known_tickets` succeeds) and `sendOk` (the Telegram
  HTTP POST succeeds).
-/

namespace TicketMonitor

/-- The nested `resale` object of one registration entry
(`ticket['resale']` in the source); each key may be missing. -/
structure Resale where
  available : Option Bool
  total_amount : Option Int
  public_url : Option String
deriving DecidableEq

/-- The nested `ticket` object of one registration entry
(`ticket['ticket']` in the source). -/
structure TicketObj where
  title : Option String
deriving DecidableEq

/-- One raw entry of `data['data']['event']['registrations_for_sale']`,
with each expected key possibly missing. -/
structure RawTicket where
  id : Option String
  ticket : Option TicketObj
  resale : Option Resale
deriving DecidableEq

/-- One element of the `new_tickets` list built at lines 111-115 of the source:
`{'title': ..., 'price': total_amount / 100, 'url': ...}`. -/
structure Offer where
  title : String
  price : Rat
  url : String
deriving DecidableEq

/-- The decoded JSON body of a 2xx response: whether a top-level `errors` key
is present (line 96), and the list `data['data']['event']['registrations_for_sale']`
(line 100), `none` when any of those keys is missing. -/
structure RespData where
  hasErrors : Bool
  registrations : Option (List RawTicket)
deriving DecidableEq

/-- Result of `requests.post(...)` plus `raise_for_status()` plus `.json()`
(lines 92-94): either an exception (non-2xx status or undecodable body) or a
decoded body. -/
inductive FetchResp where
  | httpError
  | ok (data : RespData)
deriving DecidableEq

/-- The mutable state of the loop at lines 101-115: `self.known_tickets`,
`current_ticket_ids`, and `new_tickets` (in iteration order). -/
structure LoopState where
  known : Finset String
  currentIds : Finset String
  newTickets : List Offer
deriving DecidableEq

/-- One iteration of the `for ticket in available_tickets` loop
(lines 104-115).  A missing key raises `KeyError`; the error value carries the
state as already mutated at the raise point, because the Python mutations at
lines 107 and 110 stick even when a later key access raises. -/
def processTicket (st : LoopState) (t : RawTicket) : Except LoopState LoopState :=
  match t.resale with
  | none => .error st
  | some resale =>
    match resale.available with
    | none => .error st
    | some avail =>
      if avail then
        match t.id with
        | none => .error st
        | some tid =>
          let st1 : LoopState := { st with currentIds := insert tid st.currentIds }
          if tid ∈ st1.known then .ok st1
          else
            let st2 : LoopState := { st1 with known := insert tid st1.known }
            match t.ticket with
            | none => .error st2
            | some tobj =>
              match tobj.title with
              | none => .error st2
              | some title =>
                match resale.total_amount with
                | none => .error st2
                | some amount =>
                  match resale.public_url with
                  | none => .error st2
                  | some url =>
                    .ok { st2 with
                          newTickets := st2.newTickets ++ [⟨title, (amount : Rat) / 100, url⟩] }
      else .ok st

/-- The whole `for` loop: left-to-right iteration, stopping at the first
raised `KeyError` (whose payload is the state at that moment). -/
def processList (st : LoopState) : List RawTicket → Except LoopState LoopState
  | [] => .ok st
  | t :: ts =>
    match processTicket st t with
    | .error e => .error e
    | .ok st' => processList st' ts

/-- Lines 101-115: run the loop starting from `self.known_tickets`, with
`current_ticket_ids = set()` and `new_tickets = []`. -/
def processTickets (known : Finset String) (ts : List RawTicket) : Except LoopState LoopState :=
  processList ⟨known, ∅, []⟩ ts

/-- Outcome of `send_telegram_message` (lines 49-60): the message that was
attempted and whether the POST succeeded or its failure was caught and logged.
The function itself is total: any exception is swallowed at lines 59-60. -/
inductive SendOutcome where
  | delivered
  | failedLogged
deriving DecidableEq

/-- Model of `send_telegram_message(message)`: always returns (never raises),
recording the attempted message and the delivery outcome. -/
def sendTelegramMessage (networkOk : Bool) (message : String) : String × SendOutcome :=
  (message, if networkOk then .delivered else .failedLogged)

/-- Render a nonnegative rational that is an exact multiple of 1/100 the way
Python `f"{x:.2f}"` renders it. -/
def format2decNonneg (q : Rat) : String :=
  let cents : Nat := (Rat.floor (q * 100)).toNat
  toString (cents / 100) ++ "." ++
    (if cents % 100 < 10 then "0" ++ toString (cents % 100) else toString (cents % 100))

/-- Python `f"{x:.2f}"` on an exact multiple of 1/100 (signs included). -/
def format2dec (q : Rat) : String :=
  if q < 0 then "-" ++ format2decNonneg (-q) else format2decNonneg q

/-- Line 122: `f"• {t['title']} - €{t['price']:.2f}\n{t['url']}"`. -/
def formatTicketInfo (t : Offer) : String :=
  "• " ++ t.title ++ " - €" ++ format2dec t.price ++ "\n" ++ t.url

/-- Line 123: the one notification message,
`f"🎫 {len(new_tickets)} new ticket(s) available!\n\n{chr(10).join(tickets_info)}"`. -/
def buildMessage (new : List Offer) : String :=
  "🎫 " ++ toString new.length ++ " new ticket(s) available!\n\n" ++
    String.intercalate "\n" (new.map formatTicketInfo)

/-- Observable outcome of one call to `check_ticket_availability`. -/
structure CycleOutcome where
  known : Finset String
  saved : Option (Finset String)
  sends : List (String × SendOutcome)
  raised : Bool
  errorLogged : Bool
deriving DecidableEq

/-- The body of the `try:` block of `check_ticket_availability`
(lines 64-125).  Errors are the exceptions that block can raise: a failed
fetch (lines 92-94), a missing key at line 100 or inside the loop, or a failed
`save_known_tickets()` at line 119.  The error payload is the in-memory
`self.known_tickets` at the raise point. -/
def checkBody (known : Finset String) (resp : FetchResp) (saveOk sendOk : Bool) :
    Except (Finset String) CycleOutcome :=
  match resp with
  | .httpError => .error known
  | .ok data =>
    if data.hasErrors then
      -- lines 96-98: log GraphQL errors and return early, nothing mutated.
      .ok ⟨known, none, [], false, true⟩
    else
      match data.registrations with
      | none => .error known  -- KeyError at line 100
      | some ts =>
        match processTickets known ts with
        | .error st => .error st.known  -- KeyError inside the loop
        | .ok st =>
          -- line 118: self.known_tickets.intersection_update(current_ticket_ids)
          let known2 := st.known ∩ st.currentIds
          if saveOk then
            -- lines 121-125: notify only when new_tickets is non-empty.
            if st.newTickets.isEmpty then
              .ok ⟨known2, some known2, [], false, false⟩
            else
              .ok ⟨known2, some known2,
                   [sendTelegramMessage sendOk (buildMessage st.newTickets)], false, false⟩
          else
            .error known2  -- save_known_tickets raised at line 119

/-- `check_ticket_availability` (lines 62-128): the `try:` body wrapped in
`except Exception` (lines 127-128), which catches every exception the body can
raise, logs it, and returns normally — so `raised` is always `false`. -/
def checkTicketAvailability (known : Finset String) (resp : FetchResp)
    (saveOk sendOk : Bool) : CycleOutcome :=
  match checkBody known resp saveOk sendOk with
  | .ok out => out
  | .error k => ⟨k, none, [], false, true⟩

/-- A fully well-formed registration entry, as described by the GraphQL query
at lines 76-89: all expected keys present. -/
structure Ticket where
  id : String
  title : String
  available : Bool
  total_amount : Int
  public_url : String
deriving DecidableEq

/-- Embed a well-formed entry into the raw (partial-field) representation. -/
def Ticket.toRaw (t : Ticket) : RawTicket :=
  ⟨some t.id, some ⟨some t.title⟩, some ⟨some t.available, some t.total_amount, some t.public_url⟩⟩

/-- The `new_tickets` dict the loop builds for a well-formed entry
(lines 111-115). -/
def Ticket.offer (t : Ticket) : Offer :=
  ⟨t.title, (t.total_amount : Rat) / 100, t.public_url⟩

/-- A well-formed, error-free fetch response carrying exactly the given
entries. -/
def wfResp (ts : List Ticket) : FetchResp :=
  .ok ⟨false, some (ts.map Ticket.toRaw)⟩

/-- The set of ids of the available entries of a well-formed response. -/
def availIds : List Ticket → Finset String
  | [] => ∅
  | t :: ts => if t.available then insert t.id (availIds ts) else availIds ts

/-- The sublist of entries the loop announces: available entries whose id is
not yet known at the moment they are scanned (mirrors lines 105-115 on
well-formed input). -/
def newlyAnnounced (known : Finset String) : List Ticket → List Ticket
  | [] => []
  | t :: ts =>
    if t.available ∧ t.id ∉ known then
      t :: newlyAnnounced (insert t.id known) ts
    else
      newlyAnnounced (if t.available then insert t.id known else known) ts

/-- A fetch response none of whose reachable parts is malformed: a failed
fetch, a GraphQL-error response, a response with the registrations list
missing, or a list of fully well-formed entries. -/
def FetchResp.benign : FetchResp → Prop
  | .httpError => True
  | .ok d => d.hasErrors = true ∨ d.registrations = none ∨
      ∃ ts : List Ticket, d.registrations = some (ts.map Ticket.toRaw)

/-- A sample well-formed available entry (the spec's end-to-end scenario
ticket). -/
def sampleTicket : Ticket := ⟨"A1", "GA Ticket", true, 2500, "https://x/1"⟩

/-- A registration entry whose nested `ticket` object is missing: during
cycle processing, `ticket['resale']['available']` is truthy and the id `"A"`
is added to `known_tickets` (line 110) before the access
`ticket['ticket']['title']` (line 112) raises `KeyError`. -/
def entryMissingTitle : RawTicket :=
  ⟨some "A", none, some ⟨some true, some 1000, some "u1"⟩⟩

/-- A fully well-formed available entry following the malformed one. -/
def entryB : Ticket := ⟨"B", "T2", true, 2000, "u2"⟩

/-- A fetch response with a malformed entry followed by a well-formed one. -/
def cexResp : FetchResp := .ok ⟨false, some [entryMissingTitle, entryB.toRaw]⟩

/-- A well-formed available entry named "X", for the reappearance scenario. -/
def ticketX : Ticket := ⟨"X", "GA", true, 1000, "u"⟩

/-- A malformed entry whose `resale` object is missing entirely: accessing
`ticket['resale']` at line 105 raises `KeyError` before anything of it is
processed. -/
def entryMissingResale : RawTicket := ⟨some "C", none, none⟩

/-- The ids announced in each of a run of consecutive successful well-formed
polling cycles: after such a cycle the SeenSet equals `availIds` of its
entries, and the entries announced from a SeenSet `k` are
`newlyAnnounced k ·` (both facts proved below against
`checkTicketAvailability` and `processTickets`). -/
def announcedTrace (known : Finset String) : List (List Ticket) → List (List String)
  | [] => []
  | ts :: rest => ((newlyAnnounced known ts).map Ticket.id) :: announcedTrace (availIds ts) rest

/-! ### Shared lemmas -/

lemma processTicket_toRaw (st : LoopState) (t : Ticket) :
    processTicket st t.toRaw =
      if t.available then
        if t.id ∈ st.known then .ok { st with currentIds := insert t.id st.currentIds }
        else .ok ⟨insert t.id st.known, insert t.id st.currentIds, st.newTickets ++ [t.offer]⟩
      else .ok st := by
  simp only [processTicket, Ticket.toRaw, Ticket.offer]

lemma processList_toRaw (ts : List Ticket) (st : LoopState) :
    processList st (ts.map Ticket.toRaw) =
      .ok ⟨st.known ∪ availIds ts, st.currentIds ∪ availIds ts,
           st.newTickets ++ (newlyAnnounced st.known ts).map Ticket.offer⟩ := by
  induction ts generalizing st with
  | nil => simp [processList, availIds, newlyAnnounced]
  | cons t ts ih =>
    simp only [List.map_cons, processList, processTicket_toRaw]
    by_cases ha : t.available
    · by_cases hk : t.id ∈ st.known
      · simp only [ha, hk, if_true, ih]
        have hins : insert t.id st.known = st.known := Finset.insert_eq_self.mpr hk
        simp [availIds, newlyAnnounced, ha, hk, hins, Finset.union_insert,
          Finset.insert_union, Finset.insert_eq_self.mpr (Finset.mem_union_left _ hk)]
      · simp only [ha, hk, if_true, if_false, ih]
        simp [availIds, newlyAnnounced, ha, hk, Finset.union_insert, Finset.insert_union,
          List.append_assoc]
    · simp [ha, ih, availIds, newlyAnnounced]

lemma processTickets_toRaw (known : Finset String) (ts : List Ticket) :
    processTickets known (ts.map Ticket.toRaw) =
      .ok ⟨known ∪ availIds ts, availIds ts, (newlyAnnounced known ts).map Ticket.offer⟩ := by
  simp [processTickets, processList_toRaw]

lemma check_wf (known : Finset String) (ts : List Ticket) (saveOk sendOk : Bool) :
    checkTicketAvailability known (wfResp ts) saveOk sendOk =
      if saveOk then
        ⟨availIds ts, some (availIds ts),
          if (newlyAnnounced known ts).isEmpty then []
          else [sendTelegramMessage sendOk
                  (buildMessage ((newlyAnnounced known ts).map Ticket.offer))],
          false, false⟩
      else ⟨availIds ts, none, [], false, true⟩ := by
  have hinter : (known ∪ availIds ts) ∩ availIds ts = availIds ts :=
    Finset.union_inter_cancel_right
  simp only [checkTicketAvailability, checkBody, wfResp, processTickets_toRaw,
    Bool.false_eq_true, if_false, hinter]
  cases h : newlyAnnounced known ts with
  | nil => cases saveOk <;> simp
  | cons a l => cases saveOk <;> simp

lemma availIds_cons_of_available {t : Ticket} {ts : List Ticket} (ha : t.available = true) :
    availIds (t :: ts) = insert t.id (availIds ts) := by
  simp [availIds, ha]

lemma availIds_cons_of_unavailable {t : Ticket} {ts : List Ticket} (ha : ¬t.available = true) :
    availIds (t :: ts) = availIds ts := by
  simp [availIds, ha]

lemma mem_availIds {x : String} {ts : List Ticket} :
    x ∈ availIds ts ↔ ∃ t ∈ ts, t.available = true ∧ t.id = x := by
  induction ts with
  | nil => simp [availIds]
  | cons t ts ih =>
    by_cases ha : t.available = true
    · rw [availIds_cons_of_available ha]
      simp only [Finset.mem_insert, ih, List.mem_cons]
      constructor
      · rintro (rfl | ⟨u, hu, hua, rfl⟩)
        · exact ⟨t, Or.inl rfl, ha, rfl⟩
        · exact ⟨u, Or.inr hu, hua, rfl⟩
      · rintro ⟨u, rfl | hu, hua, rfl⟩
        · exact Or.inl rfl
        · exact Or.inr ⟨u, hu, hua, rfl⟩
    · rw [availIds_cons_of_unavailable ha, ih]
      simp only [List.mem_cons]
      constructor
      · rintro ⟨u, hu, hua, rfl⟩
        exact ⟨u, Or.inr hu, hua, rfl⟩
      · rintro ⟨u, rfl | hu, hua, rfl⟩
        · exact absurd hua ha
        · exact ⟨u, hu, hua, rfl⟩

lemma mem_of_mem_newlyAnnounced {t : Ticket} {ts : List Ticket} :
    ∀ {known : Finset String}, t ∈ newlyAnnounced known ts → t ∈ ts := by
  induction ts with
  | nil => intro known h; simp [newlyAnnounced] at h
  | cons u ts ih =>
    intro known h
    simp only [newlyAnnounced] at h
    split at h
    · rcases List.mem_cons.mp h with rfl | h'
      · exact List.mem_cons_self _ _
      · exact List.mem_cons_of_mem _ (ih h')
    · exact List.mem_cons_of_mem _ (ih h)

lemma available_of_mem_newlyAnnounced {t : Ticket} {ts : List Ticket} :
    ∀ {known : Finset String}, t ∈ newlyAnnounced known ts → t.available = true := by
  induction ts with
  | nil => intro known h; simp [newlyAnnounced] at h
  | cons u ts ih =>
    intro known h
    simp only [newlyAnnounced] at h
    split at h
    · next hcond =>
      rcases List.mem_cons.mp h with rfl | h'
      · exact hcond.1
      · exact ih h'
    · exact ih h

lemma newlyAnnounced_eq_nil {ts : List Ticket} :
    ∀ {known : Finset String}, availIds ts ⊆ known → newlyAnnounced known ts = [] := by
  induction ts with
  | nil => intro known _; rfl
  | cons t ts ih =>
    intro known h
    by_cases ha : t.available
    · have hid : t.id ∈ known := h (by simp [availIds_cons_of_available ha])
      have htail : availIds ts ⊆ known := fun x hx =>
        h (by simp [availIds_cons_of_available ha, hx])
      simp only [newlyAnnounced, ha, if_true]
      rw [if_neg (by simp [hid])]
      exact ih fun x hx => Finset.mem_insert_of_mem (htail hx)
    · have htail : availIds ts ⊆ known := by
        simpa [availIds, ha] using h
      simp only [newlyAnnounced]
      rw [if_neg (by simp [ha]), if_neg (by simpa using ha)]
      exact ih htail

lemma not_mem_newlyAnnounced_ids {x : String} {ts : List Ticket} :
    ∀ {known : Finset String}, x ∈ known →
      x ∉ (newlyAnnounced known ts).map Ticket.id := by
  induction ts with
  | nil => intro known _ h; simp [newlyAnnounced] at h
  | cons t ts ih =>
    intro known hx h
    simp only [newlyAnnounced] at h
    split at h
    · next hcond =>
      rw [List.map_cons] at h
      rcases List.mem_cons.mp h with heq | h'
      · exact hcond.2 (heq ▸ hx)
      · exact ih (Finset.mem_insert_of_mem hx) h'
    · refine ih ?_ h
      split
      · exact Finset.mem_insert_of_mem hx
      · exact hx

lemma mem_newlyAnnounced_ids {x : String} {ts : List Ticket} :
    ∀ {known : Finset String}, x ∉ known → (∃ t ∈ ts, t.available = true ∧ t.id = x) →
      x ∈ (newlyAnnounced known ts).map Ticket.id := by
  induction ts with
  | nil => intro known _ h; simp at h
  | cons u ts ih =>
    intro known hx hex
    by_cases hcond : u.available = true ∧ u.id ∉ known
    · simp only [newlyAnnounced]
      rw [if_pos hcond, List.map_cons]
      rw [List.mem_cons]
      by_cases hid : u.id = x
      · exact Or.inl hid.symm
      · rcases hex with ⟨t, ht, hta, htid⟩
        rcases List.mem_cons.mp ht with rfl | ht'
        · exact absurd htid hid
        · refine Or.inr (ih ?_ ⟨t, ht', hta, htid⟩)
          simp only [Finset.mem_insert, not_or]
          exact ⟨fun hxx => hid hxx.symm, hx⟩
    · simp only [newlyAnnounced]
      rw [if_neg hcond]
      rcases hex with ⟨t, ht, hta, htid⟩
      rcases List.mem_cons.mp ht with rfl | ht'
      · -- the witness is the head: then the head was available with unknown id,
        -- contradicting hcond
        exact absurd ⟨hta, htid ▸ hx⟩ hcond
      · refine ih ?_ ⟨t, ht', hta, htid⟩
        by_cases hu : u.available = true
        · have huid : u.id ∈ known := by
            by_contra huk
            exact hcond ⟨hu, huk⟩
          rw [if_pos hu]
          simpa [Finset.insert_eq_self.mpr huid] using hx
        · rw [if_neg hu]; exact hx

lemma format2dec_natCast_div (n : Nat) :
    format2dec ((n : Rat) / 100) =
      toString (n / 100) ++ "." ++
        (if n % 100 < 10 then "0" ++ toString (n % 100) else toString (n % 100)) := by
  have hnn : (0 : Rat) ≤ (n : Rat) / 100 := by positivity
  have hlt : ¬((n : Rat) / 100 < 0) := not_lt.mpr hnn
  have hmul : (n : Rat) / 100 * 100 = (n : Rat) := by field_simp
  have hfloor : Rat.floor ((n : Rat)) = (n : Int) := by
    have h : Rat.floor ((n : Rat)) = ⌊(n : Rat)⌋ := rfl
    rw [h, Int.floor_natCast]
  simp only [format2dec, hlt, if_false, format2decNonneg, hmul, hfloor, Int.toNat_natCast]

lemma check_httpError (known : Finset String) (saveOk sendOk : Bool) :
    checkTicketAvailability known .httpError saveOk sendOk =
      ⟨known, none, [], false, true⟩ := rfl

lemma check_gqlErrors {d : RespData} (he : d.hasErrors = true) (known : Finset String)
    (saveOk sendOk : Bool) :
    checkTicketAvailability known (.ok d) saveOk sendOk =
      ⟨known, none, [], false, true⟩ := by
  simp [checkTicketAvailability, checkBody, he]

lemma check_missingRegs {d : RespData} (hr : d.registrations = none)
    (known : Finset String) (saveOk sendOk : Bool) :
    checkTicketAvailability known (.ok d) saveOk sendOk =
      ⟨known, none, [], false, true⟩ := by
  cases hd : d.hasErrors
  · simp [checkTicketAvailability, checkBody, hd, hr]
  · simp [checkTicketAvailability, checkBody, hd]

lemma check_wf_known (known : Finset String) (ts : List Ticket) (saveOk sendOk : Bool) :
    (checkTicketAvailability known (wfResp ts) saveOk sendOk).known = availIds ts := by
  rw [check_wf]; cases saveOk <;> simp

lemma check_wf_sends_of_sub {known : Finset String} {ts : List Ticket}
    (saveOk sendOk : Bool) (h : availIds ts ⊆ known) :
    (checkTicketAvailability known (wfResp ts) saveOk sendOk).sends = [] := by
  rw [check_wf]
  cases saveOk <;> simp [newlyAnnounced_eq_nil h]

lemma not_mem_announcedTrace {x : String} {cycles : List (List Ticket)} :
    ∀ {known : Finset String}, x ∈ known → (∀ c ∈ cycles, x ∈ availIds c) →
      ∀ l ∈ announcedTrace known cycles, x ∉ l := by
  induction cycles with
  | nil => intro known _ _ l hl; simp [announcedTrace] at hl
  | cons c rest ih =>
    intro known hk hc l hl
    simp only [announcedTrace, List.mem_cons] at hl
    rcases hl with rfl | hl
    · exact not_mem_newlyAnnounced_ids hk
    · exact ih (hc c (List.mem_cons_self _ _))
        (fun c' h' => hc c' (List.mem_cons_of_mem _ h')) l hl

lemma processList_append (st : LoopState) (l1 l2 : List RawTicket) :
    processList st (l1 ++ l2) =
      match processList st l1 with
      | .error e => .error e
      | .ok st' => processList st' l2 := by
  induction l1 generalizing st with
  | nil => simp [processList]
  | cons t l1 ih =>
    simp only [List.cons_append, processList]
    cases processTicket st t <;> simp [ih]

/-! ### Claim theorems -/

/-- C1: after a successful polling cycle on a well-formed, error-free response,
the in-memory SeenSet — and the persisted copy — equals exactly the set of ids
of the fetched entries whose `available` flag is true: ids absent from the
current available list are removed, and every currently-available id is a
member. -/
theorem seenSet_eq_currently_available (known : Finset String) (ts : List Ticket)
    (sendOk : Bool) :
    (checkTicketAvailability known (wfResp ts) true sendOk).known = availIds ts ∧
    (checkTicketAvailability known (wfResp ts) true sendOk).saved = some (availIds ts) ∧
    (∀ x : String, x ∈ availIds ts ↔ ∃ t ∈ ts, t.available = true ∧ t.id = x) := by
  refine ⟨?_, ?_, fun x => mem_availIds⟩ <;> rw [check_wf] <;>
    by_cases h : (newlyAnnounced known ts).isEmpty <;> simp [h]

/-- C2: a failed fetch (non-2xx status or undecodable body), a response
carrying a top-level `errors` field, or a response missing the expected
registration fields leaves the SeenSet unchanged, persists nothing, and never
calls the Notifier. -/
theorem fetch_failure_no_effect (known : Finset String) (saveOk sendOk : Bool)
    (d : RespData) :
    checkTicketAvailability known .httpError saveOk sendOk = ⟨known, none, [], false, true⟩ ∧
    (d.hasErrors = true →
      checkTicketAvailability known (.ok d) saveOk sendOk = ⟨known, none, [], false, true⟩) ∧
    (d.registrations = none →
      checkTicketAvailability known (.ok d) saveOk sendOk = ⟨known, none, [], false, true⟩) := by
  exact ⟨check_httpError known saveOk sendOk,
    fun he => check_gqlErrors he known saveOk sendOk,
    fun hr => check_missingRegs hr known saveOk sendOk⟩

/-- Witness for C2 at concrete inputs: a GraphQL-error response and a response
with the registrations list missing. -/
theorem fetch_failure_no_effect_witness :
    checkTicketAvailability ∅ (.ok ⟨true, some []⟩) true true = ⟨∅, none, [], false, true⟩ ∧
    checkTicketAvailability ∅ (.ok ⟨false, none⟩) true true = ⟨∅, none, [], false, true⟩ :=
  ⟨(fetch_failure_no_effect ∅ true true ⟨true, some []⟩).2.1 rfl,
   (fetch_failure_no_effect ∅ true true ⟨false, none⟩).2.2 rfl⟩

/-- C3 counterexample: with an empty SeenSet and the fetch result `cexResp`,
the first cycle adds id "A" and then raises on the missing title (announcing
nothing), so the second cycle on the identical fetch result skips the raise
("A" is now known), reaches the well-formed entry "B", and sends one
notification — the second of two identical cycles notifies. -/
theorem second_cycle_notifies_cex :
    (checkTicketAvailability ∅ cexResp true true).sends = [] ∧
    (checkTicketAvailability
        (checkTicketAvailability ∅ cexResp true true).known cexResp true true).sends ≠ [] := by
  decide

/-- C3 (amended): for every SeenSet state and every fetch result R that
contains no malformed entry (a failed fetch, a GraphQL-error response, a
response missing the registrations list, or a well-formed response), running
one polling cycle on R and then a second cycle on the identical R sends zero
notifications in the second cycle. -/
theorem second_cycle_sends_nothing (known : Finset String) (R : FetchResp)
    (s1 n1 s2 n2 : Bool) (hR : R.benign) :
    (checkTicketAvailability
        (checkTicketAvailability known R s1 n1).known R s2 n2).sends = [] := by
  cases R with
  | httpError => rw [check_httpError, check_httpError]
  | ok d =>
    rcases hR with he | hr | ⟨ts, hts⟩
    · rw [check_gqlErrors he, check_gqlErrors he]
    · rw [check_missingRegs hr, check_missingRegs hr]
    · cases hd : d.hasErrors
      · obtain ⟨he, reg⟩ := d
        simp only at hts hd
        subst hts hd
        show (checkTicketAvailability
          (checkTicketAvailability known (wfResp ts) s1 n1).known (wfResp ts) s2 n2).sends = []
        rw [check_wf_known]
        exact check_wf_sends_of_sub s2 n2 (subset_refl _)
      · rw [check_gqlErrors hd, check_gqlErrors hd]

/-- Witness for C3 (amended) at a concrete well-formed response. -/
theorem second_cycle_sends_nothing_witness :
    (checkTicketAvailability
        (checkTicketAvailability ∅ (wfResp [sampleTicket]) true true).known
        (wfResp [sampleTicket]) true true).sends = [] :=
  second_cycle_sends_nothing ∅ (wfResp [sampleTicket]) true true true true
    (Or.inr (Or.inr ⟨[sampleTicket], rfl⟩))

/-- C4 counterexample: ticket id "X" is available in cycle 1, absent in
cycle 2, available again in cycle 3, and all three cycles succeed — but the
SeenSet already contains "X" when cycle 1 runs (e.g. loaded from the persisted
file at startup), so cycle 1 sends no notification at all and announces
nothing: the claim's unconditional "the cycle-1 notification announces X"
fails. -/
theorem reappearance_cex :
    (checkTicketAvailability {"X"} (wfResp [ticketX]) true true).sends = [] ∧
    "X" ∉ (newlyAnnounced {"X"} [ticketX]).map Ticket.id := by
  decide

/-- C4 (amended): if additionally X's id is not yet in the SeenSet when
cycle 1 runs, then for three successful well-formed cycles with X available in
cycle 1, absent from cycle 2 and available again in cycle 3: cycle 1 announces
X and sends a notification, cycle 2 announces nothing mentioning X, and
cycle 3 announces X again and sends a notification. -/
theorem reappearance_law (known : Finset String) (x : Ticket)
    (ts1 ts2 ts3 : List Ticket)
    (hx0 : x.id ∉ known) (h1 : x ∈ ts1) (hav : x.available = true)
    (h2 : ∀ t ∈ ts2, t.id ≠ x.id) (h3 : x ∈ ts3) :
    x.id ∈ (newlyAnnounced known ts1).map Ticket.id ∧
    (checkTicketAvailability known (wfResp ts1) true true).sends ≠ [] ∧
    (x.id ∉ (newlyAnnounced
        (checkTicketAvailability known (wfResp ts1) true true).known ts2).map Ticket.id) ∧
    (x.id ∈ (newlyAnnounced
        (checkTicketAvailability
          (checkTicketAvailability known (wfResp ts1) true true).known
          (wfResp ts2) true true).known ts3).map Ticket.id) ∧
    (checkTicketAvailability
        (checkTicketAvailability known (wfResp ts1) true true).known
        (wfResp ts2) true true).known = availIds ts2 ∧
    (∀ (k : Finset String) (c : List Ticket) (n : Bool),
      (checkTicketAvailability k (wfResp c) true n).sends =
        if (newlyAnnounced k c).isEmpty then []
        else [sendTelegramMessage n (buildMessage ((newlyAnnounced k c).map Ticket.offer))]) := by
  have hann1 : x.id ∈ (newlyAnnounced known ts1).map Ticket.id :=
    mem_newlyAnnounced_ids hx0 ⟨x, h1, hav, rfl⟩
  have hsends : ∀ (k : Finset String) (c : List Ticket) (n : Bool),
      (checkTicketAvailability k (wfResp c) true n).sends =
        if (newlyAnnounced k c).isEmpty then []
        else [sendTelegramMessage n (buildMessage ((newlyAnnounced k c).map Ticket.offer))] := by
    intro k c n
    rw [check_wf]
    simp
  have hk2 : (checkTicketAvailability
      (checkTicketAvailability known (wfResp ts1) true true).known
      (wfResp ts2) true true).known = availIds ts2 := check_wf_known _ _ _ _
  have hnot2 : ∀ (k : Finset String),
      x.id ∉ (newlyAnnounced k ts2).map Ticket.id := by
    intro k hmem
    rcases List.mem_map.mp hmem with ⟨t, ht, htid⟩
    exact h2 t (mem_of_mem_newlyAnnounced ht) htid
  have hx2 : x.id ∉ availIds ts2 := by
    intro hmem
    rcases mem_availIds.mp hmem with ⟨t, ht, _, htid⟩
    exact h2 t ht htid
  refine ⟨hann1, ?_, hnot2 _, ?_, hk2, hsends⟩
  · rw [hsends]
    have hne : ¬(newlyAnnounced known ts1).isEmpty = true := by
      rcases List.mem_map.mp hann1 with ⟨t, ht, _⟩
      cases hl : newlyAnnounced known ts1
      · rw [hl] at ht; exact absurd ht (List.not_mem_nil t)
      · simp
    simp [hne]
  · rw [hk2]
    exact mem_newlyAnnounced_ids hx2 ⟨x, h3, hav, rfl⟩

/-- Witness for C4 (amended): X fresh, present in cycles 1 and 3, absent in
cycle 2. -/
theorem reappearance_law_witness :
    "X" ∈ (newlyAnnounced ∅ [ticketX]).map Ticket.id ∧
    (checkTicketAvailability ∅ (wfResp [ticketX]) true true).sends ≠ [] ∧
    "X" ∈ (newlyAnnounced
        (checkTicketAvailability
          (checkTicketAvailability ∅ (wfResp [ticketX]) true true).known
          (wfResp ([] : List Ticket)) true true).known [ticketX]).map Ticket.id :=
  ⟨(reappearance_law ∅ ticketX [ticketX] [] [ticketX] (by decide)
      (List.mem_singleton.mpr rfl) rfl (by simp) (List.mem_singleton.mpr rfl)).1,
   (reappearance_law ∅ ticketX [ticketX] [] [ticketX] (by decide)
      (List.mem_singleton.mpr rfl) rfl (by simp) (List.mem_singleton.mpr rfl)).2.1,
   (reappearance_law ∅ ticketX [ticketX] [] [ticketX] (by decide)
      (List.mem_singleton.mpr rfl) rfl (by simp) (List.mem_singleton.mpr rfl)).2.2.2.1⟩

/-- C5: processing a well-formed response yields exactly: the SeenSet grown by
the available ids, `current_ticket_ids` equal to the available ids, and a
new-ticket list holding the offers of the newly announced entries; every newly
announced entry has `available = true` (unavailable entries are never
announced and — since only `availIds` is added — never enter the SeenSet), and
each produced offer carries `price = total_amount / 100`, the title from the
nested ticket object and the url from the nested resale object. -/
theorem new_offers_shape (known : Finset String) (ts : List Ticket) :
    processTickets known (ts.map Ticket.toRaw) =
      .ok ⟨known ∪ availIds ts, availIds ts, (newlyAnnounced known ts).map Ticket.offer⟩ ∧
    (newlyAnnounced known ts).all (fun t => t.available) = true ∧
    (∀ t : Ticket, Ticket.offer t = ⟨t.title, (t.total_amount : Rat) / 100, t.public_url⟩) ∧
    (∀ t : Ticket, Ticket.toRaw t =
      ⟨some t.id, some ⟨some t.title⟩,
       some ⟨some t.available, some t.total_amount, some t.public_url⟩⟩) ∧
    (∀ x : String, x ∈ availIds ts ↔ ∃ t ∈ ts, t.available = true ∧ t.id = x) := by
  refine ⟨processTickets_toRaw known ts, ?_, fun t => rfl, fun t => rfl, fun x => mem_availIds⟩
  exact List.all_eq_true.mpr fun t ht => available_of_mem_newlyAnnounced ht

/-- C6: each bullet line is `• <title> - €<price, 2 decimals>` followed by a
newline and the url; a `total_amount` of 1050 renders as `€10.50` (the price
of any amount `n` renders with exactly two decimal digits); and a successful
cycle with new tickets produces exactly one message, whose header states the
count of new tickets and which joins one bullet per ticket with newlines. -/
theorem notification_format (new : List Offer) (t : Offer) (known : Finset String)
    (ts : List Ticket) (amount : Nat) (sendOk : Bool) :
    formatTicketInfo t = "• " ++ t.title ++ " - €" ++ format2dec t.price ++ "\n" ++ t.url ∧
    format2dec ((1050 : Rat) / 100) = "10.50" ∧
    format2dec ((amount : Rat) / 100) =
      toString (amount / 100) ++ "." ++
        (if amount % 100 < 10 then "0" ++ toString (amount % 100)
         else toString (amount % 100)) ∧
    buildMessage new =
      "🎫 " ++ toString new.length ++ " new ticket(s) available!\n\n" ++
        String.intercalate "\n" (new.map formatTicketInfo) ∧
    (checkTicketAvailability known (wfResp ts) true sendOk).sends =
      (if (newlyAnnounced known ts).isEmpty then []
       else [sendTelegramMessage sendOk
               (buildMessage ((newlyAnnounced known ts).map Ticket.offer))]) := by
  have h1050 : format2dec ((1050 : Rat) / 100) = "10.50" := by
    have h := format2dec_natCast_div 1050
    norm_num at h ⊢
    rw [h]
    decide
  refine ⟨rfl, h1050, format2dec_natCast_div amount, rfl, ?_⟩
  rw [check_wf]
  simp

/-- C7: a delivery failure in `send_telegram_message` is caught inside that
method (which totally returns, recording the failure); the cycle's SeenSet,
persisted state, raised-exception status and attempted messages are identical
to those of a cycle whose send succeeded, and no exception ever escapes the
cycle. -/
theorem delivery_failure_swallowed (known : Finset String) (resp : FetchResp)
    (saveOk : Bool) (msg : String) :
    (sendTelegramMessage false msg = (msg, .failedLogged) ∧
     sendTelegramMessage true msg = (msg, .delivered)) ∧
    (checkTicketAvailability known resp saveOk false).known =
      (checkTicketAvailability known resp saveOk true).known ∧
    (checkTicketAvailability known resp saveOk false).saved =
      (checkTicketAvailability known resp saveOk true).saved ∧
    (checkTicketAvailability known resp saveOk false).sends.map Prod.fst =
      (checkTicketAvailability known resp saveOk true).sends.map Prod.fst ∧
    (checkTicketAvailability known resp saveOk false).errorLogged =
      (checkTicketAvailability known resp saveOk true).errorLogged ∧
    (checkTicketAvailability known resp saveOk false).raised = false ∧
    (checkTicketAvailability known resp saveOk true).raised = false := by
  refine ⟨⟨rfl, rfl⟩, ?_⟩
  cases resp with
  | httpError => exact ⟨rfl, rfl, rfl, rfl, rfl, rfl⟩
  | ok d =>
    cases he : d.hasErrors
    · cases hreg : d.registrations with
      | none =>
        rw [check_missingRegs hreg, check_missingRegs hreg]
        exact ⟨rfl, rfl, rfl, rfl, rfl, rfl⟩
      | some ts =>
        cases hp : processTickets known ts with
        | error st =>
          simp [checkTicketAvailability, checkBody, he, hreg, hp]
        | ok st =>
          simp only [checkTicketAvailability, checkBody, he, hreg, hp]
          cases saveOk
          · simp
          · cases hni : st.newTickets.isEmpty <;>
              simp [hni, sendTelegramMessage]
    · rw [check_gqlErrors he, check_gqlErrors he]
      exact ⟨rfl, rfl, rfl, rfl, rfl, rfl⟩

/-- C8 counterexample: a successful fetch whose `save_known_tickets` write
fails. The exception is caught by the cycle's catch-all `except Exception`
(source lines 127-128): nothing escapes `check_ticket_availability`
(`raised = false`), the error is logged, the in-memory SeenSet was still
mutated to the available ids, nothing was persisted and nothing was sent —
the monitor loop is not crashed, contradicting the claim that the exception
propagates out of the cycle. -/
theorem save_failure_not_crash_cex :
    (checkTicketAvailability ∅ (wfResp [sampleTicket]) false true).raised = false ∧
    (checkTicketAvailability ∅ (wfResp [sampleTicket]) false true).errorLogged = true ∧
    (checkTicketAvailability ∅ (wfResp [sampleTicket]) false true).known = {"A1"} ∧
    (checkTicketAvailability ∅ (wfResp [sampleTicket]) false true).saved = none ∧
    (checkTicketAvailability ∅ (wfResp [sampleTicket]) false true).sends = [] := by
  decide

/-- C8 (amended): an I/O failure in `save_known_tickets` during a polling
cycle is caught by the cycle's generic `except Exception` handler and logged;
no exception propagates out of the cycle and the loop continues. In that
cycle nothing is persisted and no notification is sent, while the in-memory
SeenSet keeps the cycle's mutations (it equals the currently-available ids).
Only the `load_known_tickets` call at startup runs outside any handler. -/
theorem save_failure_handled (known : Finset String) (ts : List Ticket) (sendOk : Bool) :
    checkTicketAvailability known (wfResp ts) false sendOk =
      ⟨availIds ts, none, [], false, true⟩ := by
  rw [check_wf]; simp

/-- C9: in a successful cycle the SeenSet is persisted (line 119) before the
notification is attempted (lines 121-124), so a delivery failure does not
prevent persistence: with `sendOk = false` the persisted set still equals the
available ids, including every newly-added id; and in any run of later
successful cycles in which a ticket id `x.id` stays available, that id is
never announced again (`announcedTrace` lists the announced ids of each later
cycle; the two bridging conjuncts identify it with the code's behaviour). -/
theorem persisted_before_notify (known : Finset String) (ts : List Ticket)
    (x : Ticket) (cycles : List (List Ticket))
    (hx : x.id ∈ availIds ts) (hc : ∀ c ∈ cycles, x.id ∈ availIds c) :
    (checkTicketAvailability known (wfResp ts) true false).saved = some (availIds ts) ∧
    (checkTicketAvailability known (wfResp ts) true false).known = availIds ts ∧
    (∀ (k : Finset String) (c : List Ticket) (n : Bool),
      (checkTicketAvailability k (wfResp c) true n).known = availIds c ∧
      (checkTicketAvailability k (wfResp c) true n).saved = some (availIds c)) ∧
    (∀ (k : Finset String) (c : List Ticket),
      processTickets k (c.map Ticket.toRaw) =
        .ok ⟨k ∪ availIds c, availIds c, (newlyAnnounced k c).map Ticket.offer⟩) ∧
    (∀ l ∈ announcedTrace (availIds ts) cycles, x.id ∉ l) := by
  have hfields : ∀ (k : Finset String) (c : List Ticket) (n : Bool),
      (checkTicketAvailability k (wfResp c) true n).known = availIds c ∧
      (checkTicketAvailability k (wfResp c) true n).saved = some (availIds c) := by
    intro k c n
    rw [check_wf]
    by_cases h : (newlyAnnounced k c).isEmpty <;> simp [h]
  refine ⟨(hfields known ts false).2, (hfields known ts false).1, hfields,
    fun k c => processTickets_toRaw k c, ?_⟩
  exact not_mem_announcedTrace hx hc

/-- Witness for C9 at a concrete scenario: one successful cycle announcing the
sample ticket with the send failing, then one later cycle where it is still
available. -/
theorem persisted_before_notify_witness :
    (checkTicketAvailability ∅ (wfResp [sampleTicket]) true false).saved =
      some (availIds [sampleTicket]) ∧
    "A1" ∉ (newlyAnnounced (availIds [sampleTicket]) [sampleTicket]).map Ticket.id :=
  ⟨(persisted_before_notify ∅ [sampleTicket] sampleTicket [[sampleTicket]]
      (by decide) (by intro c hc; simp at hc; subst hc; decide)).1,
   (persisted_before_notify ∅ [sampleTicket] sampleTicket [[sampleTicket]]
      (by decide) (by intro c hc; simp at hc; subst hc; decide)).2.2.2.2
      ((newlyAnnounced (availIds [sampleTicket]) [sampleTicket]).map Ticket.id)
      (by simp [announcedTrace])⟩

/-- C10: when a `KeyError` is raised while iterating the fetched offer list —
here a later entry whose `resale` object is missing, after a prefix of
well-formed entries — the exception is caught by the cycle's catch-all, and
the in-memory SeenSet retains the ids already added from the earlier valid
entries (it equals `known ∪ availIds gs`, and every available earlier id is a
member) even though nothing is persisted and no notification is sent: the
cycle is not atomic with respect to the in-memory SeenSet. -/
theorem partial_iteration_not_atomic (known : Finset String) (gs : List Ticket)
    (bad : RawTicket) (rest : List RawTicket) (saveOk sendOk : Bool)
    (hbad : bad.resale = none) :
    (checkTicketAvailability known
        (.ok ⟨false, some (gs.map Ticket.toRaw ++ bad :: rest)⟩) saveOk sendOk) =
      ⟨known ∪ availIds gs, none, [], false, true⟩ ∧
    (∀ g ∈ gs, g.available = true →
      g.id ∈ (checkTicketAvailability known
        (.ok ⟨false, some (gs.map Ticket.toRaw ++ bad :: rest)⟩) saveOk sendOk).known) := by
  have hproc : processTickets known (gs.map Ticket.toRaw ++ bad :: rest) =
      .error ⟨known ∪ availIds gs, availIds gs, (newlyAnnounced known gs).map Ticket.offer⟩ := by
    rw [processTickets, processList_append]
    rw [show processList ⟨known, ∅, []⟩ (gs.map Ticket.toRaw) =
          processTickets known (gs.map Ticket.toRaw) from rfl]
    rw [processTickets_toRaw]
    simp only [processList, processTicket, hbad]
  have hout : (checkTicketAvailability known
      (.ok ⟨false, some (gs.map Ticket.toRaw ++ bad :: rest)⟩) saveOk sendOk) =
      ⟨known ∪ availIds gs, none, [], false, true⟩ := by
    simp [checkTicketAvailability, checkBody, hproc]
  refine ⟨hout, fun g hg hga => ?_⟩
  rw [hout]
  exact Finset.mem_union_right _ (mem_availIds.mpr ⟨g, hg, hga, rfl⟩)

/-- Witness for C10: one well-formed available entry, then the entry with the
missing `resale` object. -/
theorem partial_iteration_not_atomic_witness :
    (checkTicketAvailability ∅
        (.ok ⟨false, some ([sampleTicket].map Ticket.toRaw ++ entryMissingResale :: [])⟩)
        true true) = ⟨∅ ∪ availIds [sampleTicket], none, [], false, true⟩ ∧
    "A1" ∈ (checkTicketAvailability ∅
        (.ok ⟨false, some ([sampleTicket].map Ticket.toRaw ++ entryMissingResale :: [])⟩)
        true true).known :=
  ⟨(partial_iteration_not_atomic ∅ [sampleTicket] entryMissingResale [] true true rfl).1,
   (partial_iteration_not_atomic ∅ [sampleTicket] entryMissingResale [] true true rfl).2
     sampleTicket (List.mem_singleton.mpr rfl) rfl⟩

end TicketMonitor
